import Mathlib

/-!
Verification of the interactive list view of the repository
(`src/list/state.rs`), shallowly embedded in Lean 4.

The embedding follows the Rust source closely: pure functions become Lean
functions, the mutable `ListState`/`ScrollState` structs become explicit
state passing, `anyhow::Result` becomes `Except String`.  Components of the
repository that are referenced by `state.rs` but whose source files are not
available (`scroll_state.rs`, the `MaxLenWriter` in `term.rs`, the
key-dispatch loop) are modelled from the specification; each such
definition carries a doc comment starting with `Modelled from the spec:`.
-/

namespace Rustlings

/-- An exercise item, as seen read-only by the list view
(`exercise.rs`: only the fields used by `state.rs` matter here). -/
structure Exercise where
  name : String
  path : String
  done : Bool
deriving Repr, DecidableEq

/-- The row filter of the list view (`state.rs`, `enum Filter`). -/
inductive Filter where
  | Done
  | Pending
  | None
deriving Repr, DecidableEq

/-- Modelled from the spec: the Scroll State of `scroll_state.rs`, whose
source file is not available.  Fields follow the spec's data model:
`{ total_rows, selected, offset, max_visible }`, with `selected` an ordinal
within the currently filtered view. -/
structure ScrollState where
  total_rows : Nat
  selected : Option Nat
  offset : Nat
  max_visible : Nat
deriving Repr, DecidableEq

namespace ScrollState

/-- Modelled from the spec: re-clamp `offset` so that the window invariant
holds, preferring to keep `offset` unchanged when already valid (the spec's
re-clamping step shared by `set_n_rows` and `set_max_n_rows_to_display`).
When a row is selected, `offset` is clamped into
`[selected + 1 - max_visible, selected]`. -/
def update_offset (s : ScrollState) : ScrollState :=
  match s.selected with
  | none => s
  | some sel =>
    { s with offset := max ((sel + 1) - s.max_visible) (min s.offset sel) }

/-- Modelled from the spec: `new(total_rows, initial_selected, min_visible)`.
`selected` starts as `initial_selected` clamped into `[0, total_rows-1]`, or
absent if `total_rows == 0`; `offset = 0`; `max_visible = min_visible`. -/
def new (total_rows : Nat) (initial_selected : Option Nat) (min_visible : Nat) :
    ScrollState :=
  { total_rows
    selected :=
      if total_rows = 0 then none
      else initial_selected.map (fun i => min i (total_rows - 1))
    offset := 0
    max_visible := min_visible }

/-- Modelled from the spec: `set_n_rows(n)` updates `total_rows`; if
`selected >= n`, clamp `selected` to `n-1` (or absent if `n == 0`);
re-clamp `offset` so the window invariant holds. -/
def set_n_rows (s : ScrollState) (n : Nat) : ScrollState :=
  let sel :=
    match s.selected with
    | none => none
    | some sel => if sel < n then some sel else if n = 0 then none else some (n - 1)
  update_offset { s with total_rows := n, selected := sel }

/-- Modelled from the spec: `set_max_n_rows_to_display(n)` updates
`max_visible` and re-clamps `offset` so the selected row stays visible. -/
def set_max_n_rows_to_display (s : ScrollState) (n : Nat) : ScrollState :=
  update_offset { s with max_visible := n }

/-- Modelled from the spec: `select_next` moves `selected` down by one,
clamped at `total_rows - 1` (no wraparound); if the move would push the
selection below the visible window, the offset advances by exactly one. -/
def select_next (s : ScrollState) : ScrollState :=
  match s.selected with
  | none => s
  | some sel =>
    let new_sel := min (sel + 1) (s.total_rows - 1)
    let new_offset :=
      if s.offset + s.max_visible ≤ new_sel then s.offset + 1 else s.offset
    { s with selected := some new_sel, offset := new_offset }

/-- Modelled from the spec: `select_previous` moves `selected` up by one,
clamped at `0` (no wraparound); if the move would push the selection above
the visible window, the offset retreats by exactly one. -/
def select_previous (s : ScrollState) : ScrollState :=
  match s.selected with
  | none => s
  | some sel =>
    let new_sel := sel - 1
    let new_offset := if new_sel < s.offset then s.offset - 1 else s.offset
    { s with selected := some new_sel, offset := new_offset }

/-- Modelled from the spec: `select_first` jumps `selected` to `0` and sets
`offset` to the minimal value (`0`) that keeps the window inside
`[0, total_rows)` with the selection visible; with no rows there is nothing
to select. -/
def select_first (s : ScrollState) : ScrollState :=
  if s.total_rows = 0 then s
  else { s with selected := some 0, offset := 0 }

/-- Modelled from the spec: `select_last` jumps `selected` to
`total_rows - 1` and sets `offset` to the maximal value that keeps the
window inside `[0, total_rows)` with the selection visible; with no rows
there is nothing to select. -/
def select_last (s : ScrollState) : ScrollState :=
  if s.total_rows = 0 then s
  else
    { s with
      selected := some (s.total_rows - 1)
      offset := s.total_rows - s.max_visible }

end ScrollState

/-- `selected_to_exercise_ind` from `state.rs` (lines 324-346): translate a
filtered-view ordinal to an absolute exercise index.  Under `Filter::None`
the ordinal is returned unchanged; under `Done`/`Pending` the exercises are
enumerated, filtered by the predicate, and the `selected`-th element's
index is returned; `nth` returning nothing becomes the
"Invalid selection index" error. -/
def selected_to_exercise_ind (filter : Filter) (exercises : List Exercise)
    (selected : Nat) : Except String Nat :=
  match filter with
  | Filter.Done =>
    match (exercises.enum.filter (fun p => p.2.done)).get? selected with
    | some p => Except.ok p.1
    | none => Except.error "Invalid selection index"
  | Filter.Pending =>
    match (exercises.enum.filter (fun p => !p.2.done)).get? selected with
    | some p => Except.ok p.1
    | none => Except.error "Invalid selection index"
  | Filter.None => Except.ok selected

/-- The list-view state of `state.rs` (`struct ListState`).  The borrowed
`AppState` is inlined as the `exercises` list together with
`current_exercise_ind`, which is all the list view reads from it.  The
`separator_line` byte vector is represented by its column count (it is
built as `width` repetitions of a single one-column rule glyph). -/
structure ListState where
  message : String
  exercises : List Exercise
  current_exercise_ind : Nat
  scroll_state : ScrollState
  name_col_width : Nat
  filter : Filter
  term_width : Nat
  term_height : Nat
  separator_line : Nat
  narrow_term : Bool
  show_footer : Bool
deriving Repr, DecidableEq

namespace ListState

/-- `set_term_size` from `state.rs` (lines 92-117).  `u16` arithmetic is
represented over `Nat`: no expression here can exceed `u16` bounds given
`u16` inputs, and `saturating_sub` is `Nat` subtraction. -/
def set_term_size (s : ListState) (width height : Nat) : ListState :=
  let s := { s with term_width := width, term_height := height }
  if height = 0 then s
  else
    let wide_help_footer_width := 95
    let narrow_term :=
      decide (width < wide_help_footer_width) && s.scroll_state.selected.isSome
    let header_height := 1
    let footer_height := 4 + (if narrow_term then 1 else 0)
    let show_footer := decide (header_height + footer_height < height)
    let s :=
      { s with
        narrow_term, show_footer
        separator_line := if show_footer then width else s.separator_line }
    { s with
      scroll_state :=
        s.scroll_state.set_max_n_rows_to_display
          (height - (header_height + (if show_footer then footer_height else 0))) }

/-- `update_rows` from `state.rs` (lines 274-292): recompute the Scroll
State's row count as the number of exercises matching the active filter. -/
def update_rows (s : ListState) : ListState :=
  let n_rows :=
    match s.filter with
    | Filter.Done => s.exercises.countP (fun exercise => exercise.done)
    | Filter.Pending => s.exercises.countP (fun exercise => !exercise.done)
    | Filter.None => s.exercises.length
  { s with scroll_state := s.scroll_state.set_n_rows n_rows }

/-- `set_filter` from `state.rs` (lines 299-302). -/
def set_filter (s : ListState) (filter : Filter) : ListState :=
  update_rows { s with filter }

/-- `select_next` from `state.rs` (delegates to the Scroll State). -/
def select_next (s : ListState) : ListState :=
  { s with scroll_state := s.scroll_state.select_next }

/-- `select_previous` from `state.rs` (delegates to the Scroll State). -/
def select_previous (s : ListState) : ListState :=
  { s with scroll_state := s.scroll_state.select_previous }

/-- `select_first` from `state.rs` (delegates to the Scroll State). -/
def select_first (s : ListState) : ListState :=
  { s with scroll_state := s.scroll_state.select_first }

/-- `select_last` from `state.rs` (delegates to the Scroll State). -/
def select_last (s : ListState) : ListState :=
  { s with scroll_state := s.scroll_state.select_last }

/-- Modelled from the spec: the Progress Store operation
`reset_exercise_by_index(i) -> Result<name>` (in `app_state.rs`, not
available): resets the `i`-th item to not-done and returns its name; an
out-of-range index is a store error. -/
def reset_exercise_by_ind (exercises : List Exercise) (i : Nat) :
    Except String (String × List Exercise) :=
  match exercises.get? i with
  | some exercise =>
    Except.ok
      (exercise.name, exercises.set i { exercise with done := false })
  | none => Except.error "exercise index out of range"

/-- Modelled from the spec: the Progress Store operation
`set_current_exercise_index(i) -> Result<()>` (in `app_state.rs`, not
available): makes item `i` current; an out-of-range index is a store
error. -/
def set_current_exercise_ind (s : ListState) (i : Nat) : Except String ListState :=
  if i < s.exercises.length then Except.ok { s with current_exercise_ind := i }
  else Except.error "exercise index out of range"

/-- `reset_selected` from `state.rs` (lines 348-363).  With no selection it
appends the fixed phrase to `message` and succeeds.  Otherwise it resolves
the absolute index, resets that exercise in the store, recomputes row
counts, and appends a confirmation to `message` (`write!` appends to a
`String`). -/
def reset_selected (s : ListState) : Except String ListState :=
  match s.scroll_state.selected with
  | none => Except.ok { s with message := s.message ++ "Nothing selected to reset!" }
  | some selected =>
    match selected_to_exercise_ind s.filter s.exercises selected with
    | Except.error e => Except.error e
    | Except.ok exercise_ind =>
      match reset_exercise_by_ind s.exercises exercise_ind with
      | Except.error e => Except.error e
      | Except.ok (exercise_name, exercises) =>
        let s := update_rows { s with exercises }
        Except.ok
          { s with
            message :=
              s.message ++ "The exercise `" ++ exercise_name ++ "` has been reset" }

/-- `selected_to_current_exercise` from `state.rs` (lines 366-376): returns
`true` when there was something to select. -/
def selected_to_current_exercise (s : ListState) : Except String (Bool × ListState) :=
  match s.scroll_state.selected with
  | none =>
    Except.ok
      (false, { s with message := s.message ++ "Nothing selected to continue at!" })
  | some selected =>
    match selected_to_exercise_ind s.filter s.exercises selected with
    | Except.error e => Except.error e
    | Except.ok exercise_ind =>
      match set_current_exercise_ind s exercise_ind with
      | Except.error e => Except.error e
      | Except.ok s => Except.ok (true, s)

end ListState

/-- Modelled from the spec: the Bounded Output Writer (`MaxLenWriter` of
`term.rs`, not available).  It wraps the sink with a fixed column budget
`max_len` and tracks the printed width `len`; counted writes emit as many
leading columns as fit and drop the rest.  Only the accounting matters for
the width bound, so the sink itself is not represented: the number of
columns a write emits equals the increase of `len`. -/
structure MaxLenWriter where
  len : Nat
  max_len : Nat
deriving Repr, DecidableEq

namespace MaxLenWriter

/-- Modelled from the spec: a fresh writer for one line with budget
`max_len` (`MaxLenWriter::new(stdout, term_width)`). -/
def new (max_len : Nat) : MaxLenWriter :=
  { len := 0, max_len }

/-- Modelled from the spec: `write_ascii` writes as many leading columns as
fit in the remaining budget and silently drops the remainder; an ASCII
byte occupies one column. -/
def write_ascii (w : MaxLenWriter) (s : String) : MaxLenWriter :=
  { w with len := w.len + min s.length (w.max_len - w.len) }

/-- Modelled from the spec: `write_str` behaves like `write_ascii` on the
string's column count (every glyph written through this path in `state.rs`
is one column wide). -/
def write_str (w : MaxLenWriter) (s : String) : MaxLenWriter :=
  { w with len := w.len + min s.length (w.max_len - w.len) }

/-- Modelled from the spec: `add_to_len(n)` reserves `n` columns for a
glyph the caller writes directly to the sink without going through the
counted path. -/
def add_to_len (w : MaxLenWriter) (n : Nat) : MaxLenWriter :=
  { w with len := w.len + n }

end MaxLenWriter

/-- A run of `n` spaces: the slice `&SPACE[..n]` of the padding constant in
`state.rs` (line 23). -/
def spaces (n : Nat) : String :=
  String.mk (List.replicate n ' ')

/-- Modelled from the spec: `terminal_file_link` of `term.rs` (not
available) renders the path as a terminal-addressable link through the
counted writer; the escape sequences occupy no columns, so only the path
text counts. -/
def terminal_file_link (w : MaxLenWriter) (path : String) : MaxLenWriter :=
  w.write_str path

/-- The writer state after one data row of `draw_rows` in `state.rs`
(lines 132-168): selection marker (a two-column crab glyph written directly
and credited via `add_to_len 2`, or two counted blanks), current-item
marker column, done/pending status label, padded name, and the path link.
Colour and attribute commands occupy no columns. -/
def draw_row_writer (term_width : Nat) (is_selected is_current : Bool)
    (exercise : Exercise) (name_col_width : Nat) : MaxLenWriter :=
  let writer := MaxLenWriter.new term_width
  let writer :=
    if is_selected then writer.add_to_len 2 else writer.write_ascii "  "
  let writer :=
    writer.write_ascii (if is_current then ">>>>>>>  " else "         ")
  let writer :=
    writer.write_ascii (if exercise.done then "DONE     " else "PENDING  ")
  let writer := writer.write_str exercise.name
  let writer :=
    writer.write_ascii (spaces (name_col_width + 2 - exercise.name.length))
  terminal_file_link writer exercise.path

/-- Terminal columns occupied by one data row line: the crab's two direct
columns are exactly the two columns credited through `add_to_len`, and
every other write's columns equal its increase of `len`, so the line's
total column count is the writer's final `len`. -/
def draw_row_cols (term_width : Nat) (is_selected is_current : Bool)
    (exercise : Exercise) (name_col_width : Nat) : Nat :=
  (draw_row_writer term_width is_selected is_current exercise name_col_width).len

/-- Columns occupied by the header line of `draw` in `state.rs`
(lines 185-189). -/
def header_cols (term_width name_col_width : Nat) : Nat :=
  (((MaxLenWriter.new term_width).write_ascii "  Current  State    Name").write_ascii
      (spaces (name_col_width - 2)) |>.write_ascii "Path").len

/-- Columns occupied by the styled `message` footer line of `draw` in
`state.rs` (lines 262-265). -/
def message_line_cols (term_width : Nat) (message : String) : Nat :=
  ((MaxLenWriter.new term_width).write_str message).len

/-- The filter segment of the help footer in `state.rs` (lines 238-258):
one of three renderings depending on the active filter (the colour and
underline commands around the inactive option occupy no columns). -/
def help_filter_segment (filter : Filter) (w : MaxLenWriter) : MaxLenWriter :=
  match filter with
  | Filter.Done => (w.write_ascii "<d>one").write_ascii "/<p>ending"
  | Filter.Pending => (w.write_ascii "<d>one/").write_ascii "<p>ending"
  | Filter.None => w.write_ascii "<d>one/<p>ending"

/-- The help-footer line(s) of `draw` in `state.rs` (lines 222-260), one
final writer state per written line.  With a selection the navigation help
is written first; on a narrow terminal the filter segment moves to a
second line with a fresh writer (`state.rs` lines 226-229), otherwise it
continues on the same line; with no selection only the filter segment and
the quit hint are written.  Every glyph goes through the counted writer
(arrow glyphs are one column each). -/
def draw_help_footer (term_width : Nat) (has_selection narrow_term : Bool)
    (filter : Filter) : List MaxLenWriter :=
  match has_selection, narrow_term with
  | true, true =>
    [(MaxLenWriter.new term_width).write_str
        "↓/j ↑/k home/g end/G | <c>ontinue at | <r>eset exercise",
      (help_filter_segment filter
          ((MaxLenWriter.new term_width).write_ascii "filter ")).write_ascii
        " | <q>uit list"]
  | true, false =>
    [(help_filter_segment filter
        (((MaxLenWriter.new term_width).write_str
            "↓/j ↑/k home/g end/G | <c>ontinue at | <r>eset exercise").write_ascii
          " | filter ")).write_ascii " | <q>uit list"]
  | false, _ =>
    [(help_filter_segment filter
        ((MaxLenWriter.new term_width).write_ascii "filter ")).write_ascii
      " | <q>uit list"]

/-- Modelled from the spec: the progress bar of `term.rs` (not available)
is computed from `(done_count, total_count, width)` and rendered entirely
through the counted writer — `state.rs` line 210 hands it a fresh
`MaxLenWriter` with budget `term_width`.  Its content is abstracted as the
sequence of counted writes it performs, so any rendering faithful to the
spec is an instance. -/
def progress_bar_line_writer (term_width : Nat) (writes : List String) :
    MaxLenWriter :=
  writes.foldl (fun w s => w.write_str s) (MaxLenWriter.new term_width)

/-- The filtered row iterator of `draw` in `state.rs` (lines 192-199):
exercises enumerated with their absolute indices and filtered by the
active filter's predicate. -/
def filtered_exercises (filter : Filter) (exercises : List Exercise) :
    List (Nat × Exercise) :=
  match filter with
  | Filter.Done => exercises.enum.filter (fun p => p.2.done)
  | Filter.Pending => exercises.enum.filter (fun p => !p.2.done)
  | Filter.None => exercises.enum

/-- The number of data rows `draw_rows` displays (`state.rs` lines
128-131): the filtered rows after skipping `offset` and taking at most
`max_n_rows_to_display`. -/
def n_displayed_rows (s : ListState) : Nat :=
  (((filtered_exercises s.filter s.exercises).drop s.scroll_state.offset).take
      s.scroll_state.max_visible).length

/-- The number of blank padding lines `draw` writes after the rows
(`state.rs` lines 201-203): `max_n_rows_to_display() - n_displayed_rows`,
a `usize` subtraction. -/
def n_padding_lines (s : ListState) : Nat :=
  s.scroll_state.max_visible - n_displayed_rows s

/-- A user action dispatched by the external input loop. -/
inductive Action where
  | next
  | previous
  | first
  | last
  | filterDone
  | filterPending
  | filterAll
  | reset
  | toCurrent
deriving Repr, DecidableEq

/-- Modelled from the spec: the external input-dispatch loop (`list.rs`,
not available) clears the transient `message` before invoking the chosen
action, so a message survives exactly until the next action that does not
itself set one. -/
def dispatch (a : Action) (s : ListState) : Except String ListState :=
  let s := { s with message := "" }
  match a with
  | Action.next => Except.ok s.select_next
  | Action.previous => Except.ok s.select_previous
  | Action.first => Except.ok s.select_first
  | Action.last => Except.ok s.select_last
  | Action.filterDone => Except.ok (s.set_filter Filter.Done)
  | Action.filterPending => Except.ok (s.set_filter Filter.Pending)
  | Action.filterAll => Except.ok (s.set_filter Filter.None)
  | Action.reset => s.reset_selected
  | Action.toCurrent => (s.selected_to_current_exercise).map (fun p => p.2)

/-- A navigation step of the Scroll State: one `select_next` or
`select_previous` call. -/
inductive Move where
  | next
  | previous
deriving Repr, DecidableEq

/-- Apply a sequence of `select_next`/`select_previous` calls in order. -/
def applyMoves (moves : List Move) (s : ScrollState) : ScrollState :=
  moves.foldl
    (fun s m =>
      match m with
      | Move.next => s.select_next
      | Move.previous => s.select_previous)
    s

/-- The Scroll State window invariant from the spec's data model: whenever
`max_visible > 0` and a row is selected, `selected < total_rows` and
`offset ≤ selected ≤ offset + max_visible - 1`. -/
def scroll_inv (s : ScrollState) : Prop :=
  0 < s.max_visible →
    match s.selected with
    | none => True
    | some sel =>
      sel < s.total_rows ∧ s.offset ≤ sel ∧ sel < s.offset + s.max_visible

/-! Concrete sample data used to instantiate the theorems below. -/

/-- A sample exercise list: three items, two done, one pending. -/
def sampleExercises : List Exercise :=
  [{ name := "intro1", path := "exercises/intro1.rs", done := true },
   { name := "intro2", path := "exercises/intro2.rs", done := false },
   { name := "vars1", path := "exercises/vars1.rs", done := true }]

/-- A sample list-view state over `sampleExercises` with item 0 selected. -/
def sampleState : ListState :=
  { message := ""
    exercises := sampleExercises
    current_exercise_ind := 0
    scroll_state := ScrollState.new 3 (some 0) 5
    name_col_width := 6
    filter := Filter.None
    term_width := 100
    term_height := 20
    separator_line := 0
    narrow_term := false
    show_footer := true }

/-- The sample state with the message pre-populated and nothing selected. -/
def sampleStateNoSelection : ListState :=
  { sampleState with
    message := "x"
    scroll_state := { total_rows := 3, selected := none, offset := 0, max_visible := 5 } }

/-- A sample scroll state satisfying the window invariant. -/
def sampleScroll : ScrollState :=
  { total_rows := 5, selected := some 2, offset := 1, max_visible := 3 }

end Rustlings

namespace Rustlings

/-! Helper lemmas about the enumerate-filter-nth pipeline of
`selected_to_exercise_ind`. -/

theorem length_filter_enumFrom (q : Exercise → Bool) (es : List Exercise) (n : Nat) :
    ((List.enumFrom n es).filter (fun p => q p.2)).length = es.countP q := by
  induction es generalizing n with
  | nil => simp [List.enumFrom]
  | cons e es ih =>
    by_cases h : q e <;>
      simp [List.enumFrom_cons, List.filter_cons, List.countP_cons, h, ih]

theorem get?_filter_enumFrom (q : Exercise → Bool) (es : List Exercise) :
    ∀ (n k i : Nat) (e : Exercise),
      ((List.enumFrom n es).filter (fun p => q p.2)).get? k = some (i, e) →
      n ≤ i ∧ es.get? (i - n) = some e ∧ q e = true ∧
        (es.take (i - n)).countP q = k := by
  induction es with
  | nil => intro n k i e h; simp [List.enumFrom] at h
  | cons a es ih =>
    intro n k i e h
    rw [List.enumFrom_cons, List.filter_cons] at h
    by_cases hq : q a
    · simp only [hq, if_true] at h
      cases k with
      | zero =>
        have h' : (n, a) = (i, e) := by simpa using h
        injection h' with h1 h2
        subst h1; subst h2
        refine ⟨le_refl n, ?_, hq, ?_⟩ <;> simp [Nat.sub_self]
      | succ k =>
        rw [List.get?_cons_succ] at h
        obtain ⟨h1, h2, h3, h4⟩ := ih (n + 1) k i e h
        have hin : i - n = (i - (n + 1)) + 1 := by omega
        have hif : (if q a = true then 1 else 0) = 1 := by simp [hq]
        refine ⟨by omega, ?_, h3, ?_⟩
        · rw [hin, List.get?_cons_succ]; exact h2
        · rw [hin, List.take_succ_cons, List.countP_cons, hif]
          omega
    · simp only [hq] at h
      obtain ⟨h1, h2, h3, h4⟩ := ih (n + 1) k i e h
      have hin : i - n = (i - (n + 1)) + 1 := by omega
      have hif : (if q a = true then 1 else 0) = 0 := by simp [hq]
      refine ⟨by omega, ?_, h3, ?_⟩
      · rw [hin, List.get?_cons_succ]; exact h2
      · rw [hin, List.take_succ_cons, List.countP_cons, hif]
        omega

theorem filtered_nth_ok (q : Exercise → Bool) (exercises : List Exercise)
    (selected i : Nat) (e : Exercise)
    (h : (exercises.enum.filter (fun p => q p.2)).get? selected = some (i, e)) :
    exercises.get? i = some e ∧ q e = true ∧ (exercises.take i).countP q = selected := by
  have h' : ((List.enumFrom 0 exercises).filter (fun p => q p.2)).get? selected =
      some (i, e) := h
  have := get?_filter_enumFrom q exercises 0 selected i e h'
  exact ⟨by simpa using this.2.1, this.2.2.1, by simpa using this.2.2.2⟩

theorem filtered_nth_none_iff (q : Exercise → Bool) (exercises : List Exercise)
    (selected : Nat) :
    (exercises.enum.filter (fun p => q p.2)).get? selected = none ↔
      exercises.countP q ≤ selected := by
  have h0 : (exercises.enum.filter (fun p => q p.2)).length = exercises.countP q :=
    length_filter_enumFrom q exercises 0
  rw [List.get?_eq_none, h0]

/-- C1: `selected_to_absolute_index` behaves as specified.  Under
`Filter.None` (the `All` filter) it returns the ordinal unchanged.  Under
`Done` (resp. `Pending`) a returned absolute index `i` points at an item
with `done = true` (resp. `done = false`) that is preceded by exactly
`selected` matching items — i.e. it is the `selected`-th match in original
order — and the call fails with the `InvalidSelection` error exactly when
fewer than `selected + 1` matches exist. -/
theorem selected_to_exercise_ind_correct (exercises : List Exercise) (selected : Nat) :
    (selected_to_exercise_ind Filter.None exercises selected = Except.ok selected)
    ∧ (∀ i, selected_to_exercise_ind Filter.Done exercises selected = Except.ok i →
        ∃ e, exercises.get? i = some e ∧ e.done = true ∧
          (exercises.take i).countP (fun ex => ex.done) = selected)
    ∧ (selected_to_exercise_ind Filter.Done exercises selected =
        Except.error "Invalid selection index" ↔
        exercises.countP (fun ex => ex.done) ≤ selected)
    ∧ (∀ i, selected_to_exercise_ind Filter.Pending exercises selected = Except.ok i →
        ∃ e, exercises.get? i = some e ∧ e.done = false ∧
          (exercises.take i).countP (fun ex => !ex.done) = selected)
    ∧ (selected_to_exercise_ind Filter.Pending exercises selected =
        Except.error "Invalid selection index" ↔
        exercises.countP (fun ex => !ex.done) ≤ selected) := by
  refine ⟨rfl, ?_, ?_, ?_, ?_⟩
  · intro i h
    simp only [selected_to_exercise_ind] at h
    split at h
    · next p hg =>
      obtain ⟨i', e⟩ := p
      have hi : i' = i := by injection h
      obtain ⟨h1, h2, h3⟩ :=
        filtered_nth_ok (fun ex => ex.done) exercises selected i' e hg
      exact ⟨e, hi ▸ h1, h2, hi ▸ h3⟩
    · next hg => exact Except.noConfusion h
  · simp only [selected_to_exercise_ind]
    split
    · next p hg =>
      constructor
      · intro h
        exact Except.noConfusion h
      · intro hle
        rw [← filtered_nth_none_iff (fun ex => ex.done) exercises selected] at hle
        rw [hle] at hg
        exact Option.noConfusion hg
    · next hg =>
      simp only [true_iff]
      exact (filtered_nth_none_iff (fun ex => ex.done) exercises selected).mp hg
  · intro i h
    simp only [selected_to_exercise_ind] at h
    split at h
    · next p hg =>
      obtain ⟨i', e⟩ := p
      have hi : i' = i := by injection h
      obtain ⟨h1, h2, h3⟩ :=
        filtered_nth_ok (fun ex => !ex.done) exercises selected i' e hg
      exact ⟨e, hi ▸ h1, by simpa using h2, hi ▸ h3⟩
    · next hg => exact Except.noConfusion h
  · simp only [selected_to_exercise_ind]
    split
    · next p hg =>
      constructor
      · intro h
        exact Except.noConfusion h
      · intro hle
        rw [← filtered_nth_none_iff (fun ex => !ex.done) exercises selected] at hle
        rw [hle] at hg
        exact Option.noConfusion hg
    · next hg =>
      simp only [true_iff]
      exact (filtered_nth_none_iff (fun ex => !ex.done) exercises selected).mp hg

/-- Witness for C1: on the sample list (done, pending, done), ordinal `1`
under `Done` resolves to absolute index `2`, whose item is done and is
preceded by exactly one done item. -/
theorem selected_to_exercise_ind_correct_witness :
    ∃ e, sampleExercises.get? 2 = some e ∧ e.done = true ∧
      (sampleExercises.take 2).countP (fun ex => ex.done) = 1 :=
  (selected_to_exercise_ind_correct sampleExercises 1).2.1 2 rfl

/-- C10: under `Filter::None` the ordinal is returned unchanged for every
ordinal — no bounds check against the item count is performed — so an
`InvalidSelection` error can only arise under `Done` or `Pending`. -/
theorem selected_to_exercise_ind_all_never_errors :
    (∀ (exercises : List Exercise) (selected : Nat),
      selected_to_exercise_ind Filter.None exercises selected = Except.ok selected)
    ∧ (∀ (filter : Filter) (exercises : List Exercise) (selected : Nat) (err : String),
        selected_to_exercise_ind filter exercises selected = Except.error err →
        filter = Filter.Done ∨ filter = Filter.Pending) := by
  refine ⟨fun _ _ => rfl, ?_⟩
  intro filter exercises selected err h
  cases filter with
  | Done => exact Or.inl rfl
  | Pending => exact Or.inr rfl
  | None => exact Except.noConfusion h

/-- Witness for C10: `selected_to_exercise_ind` errors on an empty list
under `Done` (ordinal 0 has no match), and the error filter is `Done` or
`Pending`. -/
theorem selected_to_exercise_ind_all_never_errors_witness :
    selected_to_exercise_ind Filter.Done [] 0 =
      Except.error "Invalid selection index"
    ∧ (Filter.Done = Filter.Done ∨ Filter.Done = Filter.Pending) :=
  ⟨rfl, selected_to_exercise_ind_all_never_errors.2 Filter.Done [] 0
    "Invalid selection index" rfl⟩

/-! Preservation of the Scroll State window invariant by single
navigation steps. -/

theorem select_next_preserves_inv (s : ScrollState) (h : scroll_inv s) :
    scroll_inv s.select_next := by
  unfold scroll_inv ScrollState.select_next at *
  cases hsel : s.selected with
  | none => simp [hsel]
  | some sel =>
    intro hmv
    simp only [] at hmv ⊢
    rw [hsel] at h
    have hc := h hmv
    simp only [] at hc
    split <;> omega

theorem select_previous_preserves_inv (s : ScrollState) (h : scroll_inv s) :
    scroll_inv s.select_previous := by
  unfold scroll_inv ScrollState.select_previous at *
  cases hsel : s.selected with
  | none => simp [hsel]
  | some sel =>
    intro hmv
    simp only [] at hmv ⊢
    rw [hsel] at h
    have hc := h hmv
    simp only [] at hc
    split <;> omega

/-- C2: for every sequence of `select_next`/`select_previous` calls, the
Scroll State invariant is preserved: whenever `selected` is present and
`max_visible > 0`, `selected < total_rows` and
`offset ≤ selected ≤ offset + max_visible - 1` — the selection never
leaves `[0, total_rows-1]` and never moves outside the visible window. -/
theorem scroll_inv_preserved_by_moves (moves : List Move) (s : ScrollState)
    (h : scroll_inv s) : scroll_inv (applyMoves moves s) := by
  induction moves generalizing s with
  | nil => simpa [applyMoves] using h
  | cons m ms ih =>
    have hstep :
        applyMoves (m :: ms) s =
          applyMoves ms
            (match m with
            | Move.next => s.select_next
            | Move.previous => s.select_previous) := by
      simp [applyMoves]
    rw [hstep]
    cases m with
    | next => exact ih _ (select_next_preserves_inv s h)
    | previous => exact ih _ (select_previous_preserves_inv s h)

/-- Witness for C2: a concrete down-down-up walk from an
invariant-respecting state keeps the invariant. -/
theorem scroll_inv_preserved_by_moves_witness :
    scroll_inv (applyMoves [Move.next, Move.next, Move.previous] sampleScroll) :=
  scroll_inv_preserved_by_moves [Move.next, Move.next, Move.previous] sampleScroll
    (by intro hmv; exact ⟨by decide, by decide, by decide⟩)

/-! Projection lemmas for the Scroll State re-clamping step. -/

theorem update_offset_total_rows (s : ScrollState) :
    s.update_offset.total_rows = s.total_rows := by
  unfold ScrollState.update_offset
  cases hs : s.selected <;> rfl

theorem update_offset_selected (s : ScrollState) :
    s.update_offset.selected = s.selected := by
  unfold ScrollState.update_offset
  cases hs : s.selected <;> simp [hs]

theorem update_offset_max_visible (s : ScrollState) :
    s.update_offset.max_visible = s.max_visible := by
  unfold ScrollState.update_offset
  cases hs : s.selected <;> rfl

/-- C3: for every `set_term_size(width, height)` call with `height > 0`:
`narrow_term` is true iff `width < 95` and a selection is present,
`footer_height` is `4` plus `1` if `narrow_term`, `show_footer` holds iff
`height > 1 + footer_height`, and the Scroll State's maximum visible-row
count becomes `height - 1 - (footer_height if show_footer else 0)`,
floored at zero (`Nat` subtraction saturates like `saturating_sub`). -/
theorem set_term_size_layout (s : ListState) (width height : Nat)
    (h : 0 < height) :
    (s.set_term_size width height).narrow_term =
      (decide (width < 95) && s.scroll_state.selected.isSome)
    ∧ ((s.set_term_size width height).show_footer = true ↔
        1 + (4 + (if (s.set_term_size width height).narrow_term then 1 else 0)) <
          height)
    ∧ (s.set_term_size width height).scroll_state.max_visible =
        height -
          (1 +
            (if (s.set_term_size width height).show_footer then
              4 + (if (s.set_term_size width height).narrow_term then 1 else 0)
            else 0)) := by
  have hne : height ≠ 0 := by omega
  unfold ListState.set_term_size
  rw [if_neg hne]
  simp only [ScrollState.set_max_n_rows_to_display, update_offset_max_visible]
  refine ⟨?_, ?_, ?_⟩ <;> simp

/-- Witness for C3: a 100x20 terminal with a selection present. -/
theorem set_term_size_layout_witness :
    (sampleState.set_term_size 100 20).narrow_term =
      (decide ((100 : Nat) < 95) && sampleState.scroll_state.selected.isSome)
    ∧ ((sampleState.set_term_size 100 20).show_footer = true ↔
        1 + (4 + (if (sampleState.set_term_size 100 20).narrow_term then 1 else 0)) <
          20)
    ∧ (sampleState.set_term_size 100 20).scroll_state.max_visible =
        20 -
          (1 +
            (if (sampleState.set_term_size 100 20).show_footer then
              4 + (if (sampleState.set_term_size 100 20).narrow_term then 1 else 0)
            else 0)) :=
  set_term_size_layout sampleState 100 20 (by decide)

/-- C4: `set_filter` recomputes the Scroll State's `total_rows` as the
match count of the new predicate: `Done` yields the done count, `Pending`
the not-done count, and switching back to `All` (`Filter::None`) after any
filter change restores the full item count; no filter change touches the
item list itself. -/
theorem set_filter_total_rows (s : ListState) :
    ((s.set_filter Filter.Done).scroll_state.total_rows =
      s.exercises.countP (fun ex => ex.done))
    ∧ ((s.set_filter Filter.Pending).scroll_state.total_rows =
      s.exercises.countP (fun ex => !ex.done))
    ∧ (∀ f, ((s.set_filter f).set_filter Filter.None).scroll_state.total_rows =
      s.exercises.length)
    ∧ (∀ f, (s.set_filter f).exercises = s.exercises) := by
  refine ⟨?_, ?_, fun f => ?_, fun f => ?_⟩ <;>
    simp [ListState.set_filter, ListState.update_rows, ScrollState.set_n_rows,
      update_offset_total_rows]

/-- C5 as stated is false at `total_rows = 0`: `select_last` leaves the
selection absent (there is no row to select), so no selected ordinal
equals `total_rows - 1 = -1`. -/
theorem select_last_claim_counterexample :
    (ScrollState.new 0 (some 0) 1).select_last.selected = none
    ∧ ¬ ∃ sel : Nat,
        (ScrollState.new 0 (some 0) 1).select_last.selected = some sel ∧
          (sel : Int) = (0 : Int) - 1 := by
  refine ⟨rfl, ?_⟩
  rintro ⟨sel, hs, _⟩
  exact Option.noConfusion hs

/-- C5 (amended to `total_rows ≥ 1`): for all `total_rows ≥ 1` and
`max_visible ≥ 1`, after `select_last()` the selection is
`total_rows - 1`, the window covers it
(`offset + max_visible - 1 ≥ selected`), and `offset ≥ 0`. -/
theorem select_last_spec (s : ScrollState) (h1 : 1 ≤ s.total_rows)
    (h2 : 1 ≤ s.max_visible) :
    s.select_last.selected = some (s.total_rows - 1)
    ∧ s.total_rows - 1 ≤ s.select_last.offset + s.max_visible - 1
    ∧ 0 ≤ s.select_last.offset := by
  unfold ScrollState.select_last
  rw [if_neg (by omega : ¬ s.total_rows = 0)]
  refine ⟨rfl, ?_, Nat.zero_le _⟩
  simp only []
  omega

/-- Witness for C5: five rows, window of three. -/
theorem select_last_spec_witness :
    (ScrollState.mk 5 (some 1) 0 3).select_last.selected = some (5 - 1)
    ∧ 5 - 1 ≤ (ScrollState.mk 5 (some 1) 0 3).select_last.offset + 3 - 1
    ∧ 0 ≤ (ScrollState.mk 5 (some 1) 0 3).select_last.offset :=
  select_last_spec (ScrollState.mk 5 (some 1) 0 3) (by decide) (by decide)

/-! Column accounting of the Bounded Output Writer. -/

theorem counted_chain_le (w : MaxLenWriter) (s1 s2 s3 s4 s5 : String)
    (h : w.len ≤ w.max_len) :
    (((((w.write_ascii s1).write_ascii s2).write_str s3).write_ascii s4).write_str
        s5).len ≤ w.max_len := by
  unfold MaxLenWriter.write_ascii MaxLenWriter.write_str
  simp only []
  omega

/-- C6 as stated is false for degenerate widths: with `term_width = 1` the
selected row still receives the width-2 marker glyph, which is written
directly to the sink and credited via `add_to_len(2)` without any budget
check, so that line occupies 2 > 1 columns. -/
theorem draw_line_width_counterexample :
    draw_row_cols 1 true false (Exercise.mk "a" "b" false) 4 = 2 ∧ 1 < 2 :=
  ⟨rfl, by omega⟩

theorem write_str_len_le (w : MaxLenWriter) (s : String) (h : w.len ≤ w.max_len) :
    (w.write_str s).len ≤ w.max_len := by
  unfold MaxLenWriter.write_str
  simp only []
  omega

theorem write_ascii_len_le (w : MaxLenWriter) (s : String) (h : w.len ≤ w.max_len) :
    (w.write_ascii s).len ≤ w.max_len := by
  unfold MaxLenWriter.write_ascii
  simp only []
  omega

theorem help_segment_quit_le (filter : Filter) (w : MaxLenWriter)
    (h : w.len ≤ w.max_len) :
    ((help_filter_segment filter w).write_ascii " | <q>uit list").len ≤ w.max_len := by
  cases filter <;>
    (unfold help_filter_segment MaxLenWriter.write_ascii
     simp only []
     omega)

theorem counted_foldl_le (writes : List String) (w : MaxLenWriter)
    (h : w.len ≤ w.max_len) :
    (writes.foldl (fun w s => w.write_str s) w).len ≤ w.max_len := by
  induction writes generalizing w with
  | nil => simpa using h
  | cons s ss ih =>
    simp only [List.foldl_cons]
    exact ih (w.write_str s) (write_str_len_le w s h)

/-- C6 (amended to `term_width ≥ 2`): whenever the terminal is at least as
wide as the credited marker glyph, every line written by `draw` occupies at
most `term_width` columns — the data rows (including the selected row with
its width-2 credited glyph), the header, the styled message line, the
separator rule (rebuilt by `set_term_size` to exactly `term_width` glyphs
whenever the footer is shown), the progress-bar line (whatever counted
writes its rendering performs), and every help-footer line in all
selection/narrow/filter configurations.  Blank padding lines occupy zero
columns. -/
theorem draw_line_width_bound (term_width name_col_width : Nat)
    (is_selected is_current : Bool) (exercise : Exercise) (message : String)
    (h : 2 ≤ term_width) :
    draw_row_cols term_width is_selected is_current exercise name_col_width ≤
      term_width
    ∧ header_cols term_width name_col_width ≤ term_width
    ∧ message_line_cols term_width message ≤ term_width
    ∧ (∀ (s : ListState) (height : Nat), 0 < height →
        (s.set_term_size term_width height).show_footer = true →
        (s.set_term_size term_width height).separator_line =
          (s.set_term_size term_width height).term_width)
    ∧ (∀ writes : List String,
        (progress_bar_line_writer term_width writes).len ≤ term_width)
    ∧ (∀ (has_selection narrow_term : Bool) (filter : Filter),
        ∀ w ∈ draw_help_footer term_width has_selection narrow_term filter,
          w.len ≤ term_width) := by
  refine ⟨?_, ?_, ?_, ?_, ?_, ?_⟩
  · unfold draw_row_cols draw_row_writer terminal_file_link
    cases is_selected with
    | true =>
      simp only [if_true]
      exact counted_chain_le ((MaxLenWriter.new term_width).add_to_len 2) _ _ _ _ _
        (by unfold MaxLenWriter.new MaxLenWriter.add_to_len; simp only []; omega)
    | false =>
      simp only [if_false]
      exact counted_chain_le ((MaxLenWriter.new term_width).write_ascii "  ") _ _ _ _ _
        (by unfold MaxLenWriter.new MaxLenWriter.write_ascii; simp only []; omega)
  · unfold header_cols MaxLenWriter.new MaxLenWriter.write_ascii
    simp only []
    omega
  · unfold message_line_cols MaxLenWriter.new MaxLenWriter.write_str
    simp only []
    omega
  · intro s height hh hsf
    unfold ListState.set_term_size at hsf ⊢
    rw [if_neg (by omega : ¬ height = 0)] at hsf ⊢
    simp only [] at hsf ⊢
    simp at hsf
    simp [hsf]
  · intro writes
    exact counted_foldl_le writes (MaxLenWriter.new term_width) (Nat.zero_le _)
  · intro has_selection narrow_term filter w hw
    cases has_selection with
    | false =>
      cases narrow_term with
      | false =>
        simp only [draw_help_footer, List.mem_singleton] at hw
        subst hw
        exact help_segment_quit_le filter _ (write_ascii_len_le _ _ (Nat.zero_le _))
      | true =>
        simp only [draw_help_footer, List.mem_singleton] at hw
        subst hw
        exact help_segment_quit_le filter _ (write_ascii_len_le _ _ (Nat.zero_le _))
    | true =>
      cases narrow_term with
      | false =>
        simp only [draw_help_footer, List.mem_singleton] at hw
        subst hw
        exact help_segment_quit_le filter _
          (write_ascii_len_le _ _ (write_str_len_le _ _ (Nat.zero_le _)))
      | true =>
        simp only [draw_help_footer, List.mem_cons, List.mem_singleton,
          List.not_mem_nil, or_false] at hw
        rcases hw with rfl | rfl
        · exact write_str_len_le _ _ (Nat.zero_le _)
        · exact help_segment_quit_le filter _
            (write_ascii_len_le _ _ (Nat.zero_le _))

/-- Witness for C6: a width-80 terminal bounds a selected, current, done
row, the header, a message line, the separator, every possible
progress-bar rendering, and all help-footer lines. -/
theorem draw_line_width_bound_witness :
    draw_row_cols 80 true true (Exercise.mk "intro1" "exercises/intro1.rs" true) 6 ≤ 80
    ∧ header_cols 80 6 ≤ 80
    ∧ message_line_cols 80 "hello" ≤ 80
    ∧ (∀ (s : ListState) (height : Nat), 0 < height →
        (s.set_term_size 80 height).show_footer = true →
        (s.set_term_size 80 height).separator_line =
          (s.set_term_size 80 height).term_width)
    ∧ (∀ writes : List String, (progress_bar_line_writer 80 writes).len ≤ 80)
    ∧ (∀ (has_selection narrow_term : Bool) (filter : Filter),
        ∀ w ∈ draw_help_footer 80 has_selection narrow_term filter,
          w.len ≤ 80) :=
  draw_line_width_bound 80 6 true true (Exercise.mk "intro1" "exercises/intro1.rs" true)
    "hello" (by omega)

/-- C7 as stated is false when a message is already pending: with nothing
selected, `reset_selected` appends (`push_str`) the phrase to the existing
message instead of replacing it. -/
theorem reset_selected_message_counterexample :
    (sampleStateNoSelection.reset_selected).map (fun t => t.message) =
      Except.ok "xNothing selected to reset!"
    ∧ "xNothing selected to reset!" ≠ "Nothing selected to reset!" :=
  ⟨rfl, by decide⟩

/-- C7 (amended): if nothing is selected, `reset_selected()` returns
successfully and only appends the fixed phrase
"Nothing selected to reset!" to `message` (equal to the phrase whenever
`message` was previously empty); everything else — the exercise list, the
current exercise, and all row counts — is left completely untouched. -/
theorem reset_selected_no_selection (s : ListState)
    (h : s.scroll_state.selected = none) :
    s.reset_selected =
      Except.ok { s with message := s.message ++ "Nothing selected to reset!" } := by
  unfold ListState.reset_selected
  rw [h]

/-- Witness for C7: the sample no-selection state. -/
theorem reset_selected_no_selection_witness :
    sampleStateNoSelection.reset_selected =
      Except.ok
        { sampleStateNoSelection with
          message := sampleStateNoSelection.message ++ "Nothing selected to reset!" } :=
  reset_selected_no_selection sampleStateNoSelection rfl

/-- C8: in every draw with `term_height > 0`, the row phase displays at
most `max_visible` rows, and the padding loop then writes exactly
`max_visible - n_displayed_rows` blank lines, so displayed rows plus
padding always equals `max_visible` and the `usize` subtraction
`max_n_rows_to_display() - n_displayed_rows` never underflows. -/
theorem draw_rows_padding (s : ListState) (h : 0 < s.term_height) :
    n_displayed_rows s ≤ s.scroll_state.max_visible
    ∧ n_displayed_rows s + n_padding_lines s = s.scroll_state.max_visible := by
  have hn : n_displayed_rows s ≤ s.scroll_state.max_visible := by
    unfold n_displayed_rows
    rw [List.length_take]
    omega
  exact ⟨hn, by unfold n_padding_lines; omega⟩

/-- Witness for C8: the sample state (term_height 20). -/
theorem draw_rows_padding_witness :
    n_displayed_rows sampleState ≤ sampleState.scroll_state.max_visible
    ∧ n_displayed_rows sampleState + n_padding_lines sampleState =
      sampleState.scroll_state.max_visible :=
  draw_rows_padding sampleState (by decide)

/-- C9: `message` is transient.  The dispatch loop clears it before every
action, and navigation, filter changes, and a successful
`selected_to_current_exercise` with a selection present set no message of
their own, so after any of them `message` is empty.  (`reset_selected`
always writes a message of its own and so is not among these.) -/
theorem message_cleared_by_next_action (s : ListState) :
    (∀ s', dispatch Action.next s = Except.ok s' → s'.message = "")
    ∧ (∀ s', dispatch Action.previous s = Except.ok s' → s'.message = "")
    ∧ (∀ s', dispatch Action.first s = Except.ok s' → s'.message = "")
    ∧ (∀ s', dispatch Action.last s = Except.ok s' → s'.message = "")
    ∧ (∀ s', dispatch Action.filterDone s = Except.ok s' → s'.message = "")
    ∧ (∀ s', dispatch Action.filterPending s = Except.ok s' → s'.message = "")
    ∧ (∀ s', dispatch Action.filterAll s = Except.ok s' → s'.message = "")
    ∧ (∀ s', s.scroll_state.selected.isSome = true →
        dispatch Action.toCurrent s = Except.ok s' → s'.message = "") := by
  refine ⟨?_, ?_, ?_, ?_, ?_, ?_, ?_, ?_⟩
  · intro s' h
    obtain rfl := (Except.ok.inj h).symm
    rfl
  · intro s' h
    obtain rfl := (Except.ok.inj h).symm
    rfl
  · intro s' h
    obtain rfl := (Except.ok.inj h).symm
    rfl
  · intro s' h
    obtain rfl := (Except.ok.inj h).symm
    rfl
  · intro s' h
    obtain rfl := (Except.ok.inj h).symm
    rfl
  · intro s' h
    obtain rfl := (Except.ok.inj h).symm
    rfl
  · intro s' h
    obtain rfl := (Except.ok.inj h).symm
    rfl
  · intro s' hsel h
    unfold dispatch ListState.selected_to_current_exercise at h
    simp only [] at h
    rcases hs : s.scroll_state.selected with _ | sel
    · simp [hs] at hsel
    · simp only [hs] at h
      rcases hind : selected_to_exercise_ind s.filter s.exercises sel with e | ind
      · rw [hind] at h
        simp [Except.map] at h
      · rw [hind] at h
        unfold ListState.set_current_exercise_ind at h
        split at h
        · next e heq => exact Except.noConfusion heq
        · next exercise_ind heq =>
          obtain rfl := Except.ok.inj heq
          split at h
          · next e heq2 => simp [Except.map] at h
          · next s2 heq2 =>
            simp only [Except.map] at h
            obtain rfl := (Except.ok.inj h).symm
            split at heq2
            · obtain rfl := Except.ok.inj heq2
              rfl
            · exact Except.noConfusion heq2

/-- Witness for C9: after dispatching a navigation step on the sample
state (which carries no message), the message is empty. -/
theorem message_cleared_by_next_action_witness :
    ({ sampleState with message := "" } : ListState).select_next.message = "" :=
  (message_cleared_by_next_action sampleState).1
    ({ sampleState with message := "" } : ListState).select_next rfl

end Rustlings
